import Mathlib

/-!
Verification of the CodePipeline-to-GitHub status relay (handler.go).

The embedding translates the Go source directly:
- `GoURL` models the parsed `*url.URL` value as used by `extractRepoName`:
  its hostname, its path, and its parsed query parameters (Go reads them
  through `url.Query().Get`, which returns the first value for a key or the
  empty string when the key is absent).
- `goSplit` models `strings.Split(s, "/")`: the separator is a single
  character, so it is exactly a character-level split of the string data.
- `extractRepoName` mirrors the Go function of the same name.
- `mapStatus` is the status `switch` of `HandleLambdaEvent`, factored out
  verbatim (sequential string equality tests, as a Go switch performs).
- `HandleLambdaEvent` mirrors the handler; the two network calls
  (`GetPipelineExecution`, the HTTP POST to GitHub) and `url.Parse` are
  supplied by an `Env` record of oracle functions. The handler returns the
  GitHub request it attempted to send (`none` when control never reached
  `client.Do`) together with its `error` result.
-/

/-- The parsed URL value consumed by `extractRepoName`: Go `url.URL`
hostname, path, and the query parameters as parsed by `url.Query()`. -/
structure GoURL where
  hostname : String
  path : String
  query : List (String × String)
deriving DecidableEq, Repr

/-- Go `strings.Split(s, sep)` for the single-character separator used in
the source (`"/"`): split the character data on that character. -/
def goSplit (s : String) (sep : Char) : List String :=
  (s.data.splitOn sep).map String.mk

/-- Go `url.Values.Get(key)`: first value associated to the key, or the
empty string when the key is absent. -/
def queryGet (q : List (String × String)) (key : String) : String :=
  match q.find? (fun kv => kv.1 == key) with
  | some kv => kv.2
  | none => ""

/-- Go `extractRepoName` (handler.go lines 127-147), translated branch by
branch: switch on the hostname, split the path for the github.com case,
check the exact redirect path and the `FullRepositoryId` query parameter
for the console case, reject every other host. -/
def extractRepoName (u : GoURL) : Except String String :=
  if u.hostname = "github.com" then
    let p := goSplit u.path '/'
    if p.length < 3 then
      .error "too few path components"
    else
      .ok (p[1]! ++ "/" ++ p[2]!)
  else if u.hostname = "eu-west-1.console.aws.amazon.com" then
    if u.path ≠ "/codesuite/settings/connections/redirect" then
      .error ("unexpected URL path: " ++ u.path)
    else
      let repo := queryGet u.query "FullRepositoryId"
      if repo = "" then
        .error "missing FullRepositoryId URL param"
      else
        .ok repo
  else
    .error ("unknown hostname " ++ u.hostname)

/-- The spec invariant on a RepositoryIdentifier: exactly one "/" which
separates two non-empty segments. -/
def repoIdOk (s : String) : Bool :=
  match goSplit s '/' with
  | [a, b] => a ≠ "" && b ≠ ""
  | _ => false

/-- The inbound Lambda event (Go `event` struct). -/
structure Event where
  executionID : String
  githubToken : String
  pipeline : String
deriving DecidableEq, Repr

/-- One `codepipeline.ArtifactRevision` as read by the handler. -/
structure ArtifactRevision where
  name : String
  revisionId : String
  revisionUrl : String
deriving DecidableEq, Repr

/-- The fields of the `GetPipelineExecution` response that the handler
reads: the execution status label and the artifact revisions. -/
structure PipelineExecution where
  status : String
  artifactRevisions : List ArtifactRevision
deriving DecidableEq, Repr

/-- An HTTP response as the handler observes it: status code and body. -/
structure HttpResponse where
  statusCode : Nat
  body : String
deriving DecidableEq, Repr

/-- Go `ghReqPayload`: the JSON status payload posted to GitHub. -/
structure GhReqPayload where
  state : String
  targetURL : String
  description : String
  context : String
deriving DecidableEq, Repr

/-- The outbound GitHub request the handler builds: URL, JSON payload and
the three headers it sets. -/
structure GhRequest where
  url : String
  payload : GhReqPayload
  accept : String
  authorization : String
  contentType : String
deriving DecidableEq, Repr

/-- The external world of one invocation: the CodePipeline lookup call,
Go `url.Parse` (pure but unspecified here), and the HTTP POST. -/
structure Env where
  getPipelineExecution : String → String → Except String PipelineExecution
  parseURL : String → Except String GoURL
  post : GhRequest → Except String HttpResponse

/-- The status `switch` of `HandleLambdaEvent` (lines 72-81): a Go switch
on a string is a sequence of equality tests with a default. -/
def mapStatus (status : String) : String :=
  if status = "InProgress" then "pending"
  else if status = "Succeeded" then "success"
  else "failure"

/-- The artifact-revision loop of `HandleLambdaEvent` (lines 54-60): the
first revision whose name is "SourceArtifact", if any. -/
def findSourceArtifact (revs : List ArtifactRevision) : Option ArtifactRevision :=
  revs.find? (fun a => a.name == "SourceArtifact")

/-- The response check of `HandleLambdaEvent` (lines 118-122): any status
code other than 201 is an error carrying the code and the body. -/
def checkGithubResponse (r : HttpResponse) : Except String Unit :=
  if r.statusCode ≠ 201 then
    .error ("unexpected response from GitHub: " ++ toString r.statusCode
      ++ " body: " ++ r.body)
  else
    .ok ()

/-- The GitHub request as `HandleLambdaEvent` assembles it (lines 88-116):
status URL, JSON payload (the Description field is left at its zero value,
the empty string, and is always serialized), and the three headers. -/
def buildGhRequest (ev : Event) (ghStatus repo rev : String) : GhRequest :=
  { url := "https://api.github.com/repos/" ++ repo ++ "/statuses/" ++ rev
    payload :=
      { state := ghStatus
        targetURL :=
          "https://eu-west-1.console.aws.amazon.com/codesuite/codepipeline/pipelines/"
            ++ ev.pipeline ++ "/executions/" ++ ev.executionID
        description := ""
        context := "continuous-integration/codepipeline" }
    accept := "application/json"
    authorization := "token " ++ ev.githubToken
    contentType := "application/json; charset=utf-8" }

/-- Go `HandleLambdaEvent`, step by step in source order. The first
component records the GitHub request if and only if control reached
`client.Do`; the second is the returned `error` value. The Go code wraps
the resolver error with the offending URL; the wrapper here interpolates
the raw revision URL string where Go re-renders the parsed URL. -/
def HandleLambdaEvent (env : Env) (ev : Event) :
    Option GhRequest × Except String Unit :=
  if ev.executionID = "" then
    (none, .error "missing event param execution-id")
  else if ev.githubToken = "" then
    (none, .error "missing event param github-token")
  else if ev.pipeline = "" then
    (none, .error "missing event param pipeline")
  else
    match env.getPipelineExecution ev.executionID ev.pipeline with
    | .error e => (none, .error e)
    | .ok res =>
      match findSourceArtifact res.artifactRevisions with
      | none => (none, .error "missing SourceArtifact")
      | some sourceArti =>
        let rev := sourceArti.revisionId
        match env.parseURL sourceArti.revisionUrl with
        | .error e => (none, .error e)
        | .ok url =>
          let ghStatus := mapStatus res.status
          match extractRepoName url with
          | .error e =>
            (none, .error ("failed to extract repo name from artifact url "
              ++ sourceArti.revisionUrl ++ ": " ++ e))
          | .ok repo =>
            let req := buildGhRequest ev ghStatus repo rev
            match env.post req with
            | .error e => (some req, .error e)
            | .ok ghRes => (some req, checkGithubResponse ghRes)

/-- Equality of `Except` values is decidable when both components are;
used to evaluate handler outcomes on concrete inputs. -/
instance exceptDecidableEq {ε α : Type} [DecidableEq ε] [DecidableEq α] :
    DecidableEq (Except ε α) := fun a b =>
  match a, b with
  | .error x, .error y => decidable_of_iff (x = y) (by simp)
  | .error _, .ok _ => isFalse (by simp)
  | .ok _, .error _ => isFalse (by simp)
  | .ok x, .ok y => decidable_of_iff (x = y) (by simp)

/-- Fixture: an environment whose external calls all fail; validation
failures must not depend on it. -/
def stubEnv : Env :=
  { getPipelineExecution := fun _ _ => .error "stub"
    parseURL := fun _ => .error "stub"
    post := fun _ => .error "stub" }

/-- Fixture: a lookup that returns an execution without any revision
named SourceArtifact. -/
def envNoSource : Env :=
  { getPipelineExecution := fun _ _ =>
      .ok (PipelineExecution.mk "Succeeded"
        [ArtifactRevision.mk "BuildArtifact" "abc123" "u"])
    parseURL := fun _ => .error "stub"
    post := fun _ => .error "stub" }

/-- Fixture: the end-to-end success scenario — a Succeeded execution with
one SourceArtifact revision pointing at github.com/acme/widgets, and a
GitHub endpoint answering 201. -/
def envScenario1 : Env :=
  { getPipelineExecution := fun _ _ =>
      .ok (PipelineExecution.mk "Succeeded"
        [ArtifactRevision.mk "SourceArtifact" "abc123"
          "https://github.com/acme/widgets/commit/abc123"])
    parseURL := fun _ =>
      .ok (GoURL.mk "github.com" "/acme/widgets/commit/abc123" [])
    post := fun _ => .ok (HttpResponse.mk 201 "") }

/-- Fixture: the scenario-1 inbound event. -/
def eventScenario1 : Event := Event.mk "exec1" "tok" "pipe1"

/-- Fixture: the request the handler sends in scenario 1. -/
def reqScenario1 : GhRequest :=
  buildGhRequest eventScenario1 "success" "acme/widgets" "abc123"

/-- No element produced by `splitOnP p` contains a character satisfying
`p`: the separators are removed by the split. -/
theorem splitOnP_sep_not (p : Char → Bool) (l : List Char) :
    ∀ s ∈ l.splitOnP p, ∀ c ∈ s, ¬ p c := by
  induction l with
  | nil =>
    intro s hs
    rw [List.splitOnP_nil] at hs
    rw [List.mem_singleton] at hs
    subst hs
    intro c hc
    exact absurd hc (List.not_mem_nil c)
  | cons x xs ih =>
    intro s hs
    rw [List.splitOnP_cons] at hs
    by_cases hx : p x
    · rw [if_pos hx] at hs
      rcases List.mem_cons.mp hs with rfl | h
      · intro c hc; exact absurd hc (List.not_mem_nil c)
      · exact ih s h
    · rw [if_neg hx] at hs
      rcases hsp : xs.splitOnP p with _ | ⟨hd, tl⟩
      · exact absurd hsp (List.splitOnP_ne_nil p xs)
      · rw [hsp, List.modifyHead_cons] at hs
        rcases List.mem_cons.mp hs with rfl | h
        · intro c hc
          rcases List.mem_cons.mp hc with rfl | hc
          · exact hx
          · exact ih hd (by rw [hsp]; exact List.mem_cons_self hd tl) c hc
        · exact ih s (by rw [hsp]; exact List.mem_cons_of_mem hd h)

/-- Splitting `a ++ "/" ++ b` on the slash recovers `[a, b]` when neither
side contains a slash. -/
theorem goSplit_append_slash (a b : String)
    (ha : ('/' : Char) ∉ a.data) (hb : ('/' : Char) ∉ b.data) :
    goSplit (a ++ "/" ++ b) '/' = [a, b] := by
  have ha' : ∀ x ∈ a.data, ¬((x == '/') = true) := fun x hx hb' =>
    ha (by rwa [eq_of_beq hb'] at hx)
  have hb' : ∀ x ∈ b.data, ¬((x == '/') = true) := fun x hx hc =>
    hb (by rwa [eq_of_beq hc] at hx)
  have hdata : (a ++ "/" ++ b).data = a.data ++ '/' :: b.data := by
    simp [String.data_append]
  unfold goSplit
  rw [hdata]
  simp only [List.splitOn]
  rw [List.splitOnP_first _ _ ha' '/' (by simp), List.splitOnP_eq_single _ _ hb']
  rfl

/-- Splitting a well-formed source-host path `/owner/repo/rest` on the
slash yields the empty leading segment, owner, repo, then the split of
the remainder. -/
theorem goSplit_wellformed_path (owner repo rest : String)
    (ho : ('/' : Char) ∉ owner.data) (hr : ('/' : Char) ∉ repo.data) :
    goSplit ("/" ++ owner ++ "/" ++ repo ++ "/" ++ rest) '/' =
      "" :: owner :: repo :: goSplit rest '/' := by
  have ho' : ∀ x ∈ owner.data, ¬((x == '/') = true) := fun x hx hb =>
    ho (by rwa [eq_of_beq hb] at hx)
  have hr' : ∀ x ∈ repo.data, ¬((x == '/') = true) := fun x hx hb =>
    hr (by rwa [eq_of_beq hb] at hx)
  have hdata : ("/" ++ owner ++ "/" ++ repo ++ "/" ++ rest).data =
      '/' :: (owner.data ++ '/' :: (repo.data ++ '/' :: rest.data)) := by
    simp [String.data_append]
  unfold goSplit
  rw [hdata]
  simp only [List.splitOn]
  rw [List.splitOnP_cons, if_pos (by simp)]
  rw [List.splitOnP_first _ _ ho' '/' (by simp)]
  rw [List.splitOnP_first _ _ hr' '/' (by simp)]
  rfl

/-- C1: on the github.com branch, any path splitting into at least 3
segments resolves to segment 1, a slash, and segment 2 (0-indexed); in
particular every well-formed locator path /owner/repo/rest with
slash-free owner and repo resolves to owner/repo. -/
theorem extractRepoName_github_ok :
    (∀ u : GoURL, u.hostname = "github.com" →
      3 ≤ (goSplit u.path '/').length →
      extractRepoName u =
        .ok ((goSplit u.path '/')[1]! ++ "/" ++ (goSplit u.path '/')[2]!))
  ∧ (∀ owner repo rest : String,
      ('/' : Char) ∉ owner.data → ('/' : Char) ∉ repo.data →
      ∀ u : GoURL, u.hostname = "github.com" →
      u.path = "/" ++ owner ++ "/" ++ repo ++ "/" ++ rest →
      extractRepoName u = .ok (owner ++ "/" ++ repo)) := by
  have part1 : ∀ u : GoURL, u.hostname = "github.com" →
      3 ≤ (goSplit u.path '/').length →
      extractRepoName u =
        .ok ((goSplit u.path '/')[1]! ++ "/" ++ (goSplit u.path '/')[2]!) := by
    intro u h hlen
    simp [extractRepoName, h, Nat.not_lt.mpr hlen]
  refine ⟨part1, fun owner repo rest ho hr u h hp => ?_⟩
  have hs := goSplit_wellformed_path owner repo rest ho hr
  have h3 : 3 ≤ (goSplit u.path '/').length := by
    rw [hp, hs]; simp
  rw [part1 u h h3, hp, hs]
  simp

/-- Witness for C1: the scenario-1 locator github.com/acme/widgets/commit/abc123
resolves to acme/widgets (applying the well-formed-path part). -/
theorem extractRepoName_github_ok_witness :
    ('/' : Char) ∉ ("acme" : String).data ∧
      ('/' : Char) ∉ ("widgets" : String).data ∧
      (GoURL.mk "github.com" "/acme/widgets/commit/abc123" []).path =
        "/" ++ "acme" ++ "/" ++ "widgets" ++ "/" ++ "commit/abc123" ∧
      extractRepoName (GoURL.mk "github.com" "/acme/widgets/commit/abc123" []) =
        .ok ("acme" ++ "/" ++ "widgets") :=
  ⟨by decide, by decide, by decide,
    extractRepoName_github_ok.2 "acme" "widgets" "commit/abc123"
      (by decide) (by decide) _ rfl (by decide)⟩

/-- C2 counterexample: the resolver succeeds on a connection-redirect
locator whose FullRepositoryId value is "x", yet "x" contains no "/" at
all, so the claimed invariant fails on the connection-redirect branch. -/
theorem repoId_invariant_cex :
    extractRepoName
        (GoURL.mk "eu-west-1.console.aws.amazon.com"
          "/codesuite/settings/connections/redirect"
          [("FullRepositoryId", "x")]) =
      .ok "x" ∧ repoIdOk "x" = false := by
  exact ⟨rfl, by decide⟩

/-- C2 amended: on the source-host (github.com) branch the invariant does
hold whenever path segments 1 and 2 are non-empty: the resolver succeeds
and its result contains exactly one "/" separating two non-empty
segments. The connection-redirect branch gives no such guarantee. -/
theorem repoId_invariant_github (u : GoURL) (h : u.hostname = "github.com")
    (hlen : 3 ≤ (goSplit u.path '/').length)
    (h1 : (goSplit u.path '/')[1]! ≠ "") (h2 : (goSplit u.path '/')[2]! ≠ "") :
    ∃ s, extractRepoName u = .ok s ∧ repoIdOk s = true := by
  refine ⟨(goSplit u.path '/')[1]! ++ "/" ++ (goSplit u.path '/')[2]!, ?_, ?_⟩
  · simp [extractRepoName, h, Nat.not_lt.mpr hlen]
  · have hlt1 : 1 < (goSplit u.path '/').length := by omega
    have hlt2 : 2 < (goSplit u.path '/').length := by omega
    have hmem1 : (goSplit u.path '/')[1]! ∈ goSplit u.path '/' := by
      rw [getElem!_pos (goSplit u.path '/') 1 hlt1]
      exact List.getElem_mem hlt1
    have hmem2 : (goSplit u.path '/')[2]! ∈ goSplit u.path '/' := by
      rw [getElem!_pos (goSplit u.path '/') 2 hlt2]
      exact List.getElem_mem hlt2
    have hsf : ∀ s ∈ goSplit u.path '/', ('/' : Char) ∉ s.data := by
      intro s hsm
      simp only [goSplit, List.mem_map] at hsm
      obtain ⟨t, ht, rfl⟩ := hsm
      intro hc
      exact splitOnP_sep_not (· == '/') u.path.data t ht '/' hc (by simp)
    have hsplit := goSplit_append_slash _ _ (hsf _ hmem1) (hsf _ hmem2)
    simp only [repoIdOk, hsplit]
    simp [h1, h2]

/-- Witness for the C2 amended theorem at the scenario-1 locator. -/
theorem repoId_invariant_github_witness :
    3 ≤ (goSplit ("/acme/widgets/commit/abc123" : String) '/').length ∧
      (goSplit ("/acme/widgets/commit/abc123" : String) '/')[1]! ≠ "" ∧
      (goSplit ("/acme/widgets/commit/abc123" : String) '/')[2]! ≠ "" ∧
      ∃ s, extractRepoName
          (GoURL.mk "github.com" "/acme/widgets/commit/abc123" []) = .ok s ∧
        repoIdOk s = true :=
  ⟨by decide, by decide, by decide,
    repoId_invariant_github
      (GoURL.mk "github.com" "/acme/widgets/commit/abc123" [])
      rfl (by decide) (by decide) (by decide)⟩

/-- C3: the status mapper is total and exact: "InProgress" maps to
"pending", "Succeeded" to "success", and every other string (including
"", "Failed", "Stopped", arbitrary garbage) to "failure". -/
theorem mapStatus_total_exact :
    mapStatus "InProgress" = "pending" ∧ mapStatus "Succeeded" = "success" ∧
      ∀ s : String, s ≠ "InProgress" → s ≠ "Succeeded" → mapStatus s = "failure" := by
  refine ⟨rfl, rfl, fun s h1 h2 => ?_⟩
  simp [mapStatus, h1, h2]

/-- Witness for C3 at the concrete input "Stopped". -/
theorem mapStatus_total_exact_witness :
    ("Stopped" : String) ≠ "InProgress" ∧ ("Stopped" : String) ≠ "Succeeded" ∧
      mapStatus "Stopped" = "failure" :=
  ⟨by decide, by decide, mapStatus_total_exact.2.2 "Stopped" (by decide) (by decide)⟩

/-- C4: on the github.com branch, a path splitting into fewer than 3
segments (fewer than 2 segments after the leading empty one) is rejected
with the "too few path components" error. -/
theorem extractRepoName_too_few (u : GoURL) (h : u.hostname = "github.com")
    (hlen : (goSplit u.path '/').length < 3) :
    extractRepoName u = .error "too few path components" := by
  simp [extractRepoName, h, hlen]

/-- Witness for C4 at the concrete locator github.com/acme. -/
theorem extractRepoName_too_few_witness :
    (GoURL.mk "github.com" "/acme" []).hostname = "github.com" ∧
      (goSplit (GoURL.mk "github.com" "/acme" []).path '/').length < 3 ∧
      extractRepoName (GoURL.mk "github.com" "/acme" []) =
        .error "too few path components" :=
  ⟨rfl, by decide, extractRepoName_too_few _ rfl (by decide)⟩

/-- C5: a connection-redirect locator with the exact redirect path and a
non-empty FullRepositoryId query parameter resolves to that parameter
value unchanged. -/
theorem extractRepoName_redirect_ok (u : GoURL)
    (h : u.hostname = "eu-west-1.console.aws.amazon.com")
    (hp : u.path = "/codesuite/settings/connections/redirect")
    (hq : queryGet u.query "FullRepositoryId" ≠ "") :
    extractRepoName u = .ok (queryGet u.query "FullRepositoryId") := by
  simp [extractRepoName, h, hp, hq]

/-- Witness for C5 at the concrete redirect locator carrying
FullRepositoryId acme/widgets. -/
theorem extractRepoName_redirect_ok_witness :
    queryGet [("FullRepositoryId", "acme/widgets")] "FullRepositoryId" ≠ "" ∧
      extractRepoName
        (GoURL.mk "eu-west-1.console.aws.amazon.com"
          "/codesuite/settings/connections/redirect"
          [("FullRepositoryId", "acme/widgets")]) =
        .ok (queryGet [("FullRepositoryId", "acme/widgets")] "FullRepositoryId") :=
  ⟨by decide, extractRepoName_redirect_ok _ rfl rfl (by decide)⟩

/-- C6: the three rejection cases of the resolver produce exactly the
specified errors: wrong path on the redirect host, absent-or-empty
FullRepositoryId on the correct redirect path, and any other host. -/
theorem extractRepoName_errors :
    (∀ u : GoURL, u.hostname = "eu-west-1.console.aws.amazon.com" →
      u.path ≠ "/codesuite/settings/connections/redirect" →
      extractRepoName u = .error ("unexpected URL path: " ++ u.path))
  ∧ (∀ u : GoURL, u.hostname = "eu-west-1.console.aws.amazon.com" →
      u.path = "/codesuite/settings/connections/redirect" →
      queryGet u.query "FullRepositoryId" = "" →
      extractRepoName u = .error "missing FullRepositoryId URL param")
  ∧ (∀ u : GoURL, u.hostname ≠ "github.com" →
      u.hostname ≠ "eu-west-1.console.aws.amazon.com" →
      extractRepoName u = .error ("unknown hostname " ++ u.hostname)) := by
  refine ⟨fun u h hp => ?_, fun u h hp hq => ?_, fun u h1 h2 => ?_⟩
  · simp [extractRepoName, h, hp]
  · simp [extractRepoName, h, hp, hq]
  · simp [extractRepoName, h1, h2]

/-- Witness for C6 at a concrete unknown host. -/
theorem extractRepoName_errors_witness :
    (GoURL.mk "bitbucket.org" "/acme/widgets" []).hostname ≠ "github.com" ∧
      extractRepoName (GoURL.mk "bitbucket.org" "/acme/widgets" []) =
        .error ("unknown hostname " ++ "bitbucket.org") :=
  ⟨by decide, extractRepoName_errors.2.2 _ (by decide) (by decide)⟩

/-- Whenever the handler records a request (control reached the POST),
that request is the one built from the fetched execution, the selected
SourceArtifact revision and the resolved repository, and the final
outcome is the POST outcome filtered through `checkGithubResponse`. -/
theorem handler_sent (env : Env) (ev : Event) (req : GhRequest)
    (h : (HandleLambdaEvent env ev).1 = some req) :
    ∃ res arti url repo,
      env.getPipelineExecution ev.executionID ev.pipeline = .ok res ∧
      findSourceArtifact res.artifactRevisions = some arti ∧
      env.parseURL arti.revisionUrl = .ok url ∧
      extractRepoName url = .ok repo ∧
      req = buildGhRequest ev (mapStatus res.status) repo arti.revisionId ∧
      (HandleLambdaEvent env ev).2 =
        (match env.post req with
         | .error e => .error e
         | .ok ghRes => checkGithubResponse ghRes) := by
  by_cases h1 : ev.executionID = ""
  · simp [HandleLambdaEvent, h1] at h
  by_cases h2 : ev.githubToken = ""
  · simp [HandleLambdaEvent, h1, h2] at h
  by_cases h3 : ev.pipeline = ""
  · simp [HandleLambdaEvent, h1, h2, h3] at h
  rcases hget : env.getPipelineExecution ev.executionID ev.pipeline with e | res
  · simp [HandleLambdaEvent, h1, h2, h3, hget] at h
  rcases hfind : findSourceArtifact res.artifactRevisions with _ | arti
  · simp [HandleLambdaEvent, h1, h2, h3, hget, hfind] at h
  rcases hparse : env.parseURL arti.revisionUrl with e | url
  · simp [HandleLambdaEvent, h1, h2, h3, hget, hfind, hparse] at h
  rcases hex : extractRepoName url with e | repo
  · simp [HandleLambdaEvent, h1, h2, h3, hget, hfind, hparse, hex] at h
  have hred : HandleLambdaEvent env ev =
      (match env.post (buildGhRequest ev (mapStatus res.status) repo arti.revisionId) with
       | .error e =>
         (some (buildGhRequest ev (mapStatus res.status) repo arti.revisionId), .error e)
       | .ok ghRes =>
         (some (buildGhRequest ev (mapStatus res.status) repo arti.revisionId),
           checkGithubResponse ghRes)) := by
    simp [HandleLambdaEvent, h1, h2, h3, hget, hfind, hparse, hex]
  rcases hpost : env.post (buildGhRequest ev (mapStatus res.status) repo arti.revisionId)
    with e | ghRes
  · rw [hpost] at hred
    rw [hred] at h
    simp at h
    refine ⟨res, arti, url, repo, rfl, hfind, hparse, hex, h.symm, ?_⟩
    rw [hred, h.symm, hpost]
  · rw [hpost] at hred
    rw [hred] at h
    simp at h
    refine ⟨res, arti, url, repo, rfl, hfind, hparse, hex, h.symm, ?_⟩
    rw [hred, h.symm, hpost]

/-- C7: an inbound event with an empty execution-id, github-token or
pipeline field fails validation with a message naming an empty field,
and does so before any external call: the outcome is the same for every
environment and no GitHub request is recorded. -/
theorem handler_validation (env : Env) (ev : Event)
    (h : ev.executionID = "" ∨ ev.githubToken = "" ∨ ev.pipeline = "") :
    ∃ f, HandleLambdaEvent env ev = (none, .error ("missing event param " ++ f)) ∧
      ((f = "execution-id" ∧ ev.executionID = "") ∨
       (f = "github-token" ∧ ev.githubToken = "") ∨
       (f = "pipeline" ∧ ev.pipeline = "")) := by
  by_cases h1 : ev.executionID = ""
  · exact ⟨"execution-id", by simp [HandleLambdaEvent, h1], Or.inl ⟨rfl, h1⟩⟩
  by_cases h2 : ev.githubToken = ""
  · exact ⟨"github-token", by simp [HandleLambdaEvent, h1, h2],
      Or.inr (Or.inl ⟨rfl, h2⟩)⟩
  have h3 : ev.pipeline = "" := by tauto
  exact ⟨"pipeline", by simp [HandleLambdaEvent, h1, h2, h3],
    Or.inr (Or.inr ⟨rfl, h3⟩)⟩

/-- Witness for C7: an event with an empty execution-id fails against the
all-failing stub environment without consulting it. -/
theorem handler_validation_witness :
    ((Event.mk "" "tok" "pipe1").executionID = "" ∨
      (Event.mk "" "tok" "pipe1").githubToken = "" ∨
      (Event.mk "" "tok" "pipe1").pipeline = "") ∧
    ∃ f, HandleLambdaEvent stubEnv (Event.mk "" "tok" "pipe1") =
        (none, .error ("missing event param " ++ f)) ∧
      ((f = "execution-id" ∧ (Event.mk "" "tok" "pipe1").executionID = "") ∨
       (f = "github-token" ∧ (Event.mk "" "tok" "pipe1").githubToken = "") ∨
       (f = "pipeline" ∧ (Event.mk "" "tok" "pipe1").pipeline = "")) :=
  ⟨Or.inl rfl, handler_validation stubEnv (Event.mk "" "tok" "pipe1") (Or.inl rfl)⟩

/-- C8: the handler selects the first artifact revision named
SourceArtifact and ignores later matches; when no revision has that name
the invocation fails with "missing SourceArtifact" and no GitHub request
is ever made. -/
theorem handler_source_artifact :
    (∀ (pre post : List ArtifactRevision) (a : ArtifactRevision),
      a.name = "SourceArtifact" → (∀ x ∈ pre, x.name ≠ "SourceArtifact") →
      findSourceArtifact (pre ++ a :: post) = some a)
  ∧ (∀ (env : Env) (ev : Event) (res : PipelineExecution),
      ev.executionID ≠ "" → ev.githubToken ≠ "" → ev.pipeline ≠ "" →
      env.getPipelineExecution ev.executionID ev.pipeline = .ok res →
      (∀ x ∈ res.artifactRevisions, x.name ≠ "SourceArtifact") →
      HandleLambdaEvent env ev = (none, .error "missing SourceArtifact")) := by
  constructor
  · intro pre post a ha hpre
    have hnone : pre.find? (fun x => x.name == "SourceArtifact") = none :=
      List.find?_eq_none.mpr (fun x hx => by simp [hpre x hx])
    simp [findSourceArtifact, List.find?_append, hnone, ha]
  · intro env ev res h1 h2 h3 hget hnone
    have hfind : findSourceArtifact res.artifactRevisions = none := by
      simp only [findSourceArtifact]
      exact List.find?_eq_none.mpr (fun x hx => by simp [hnone x hx])
    simp [HandleLambdaEvent, h1, h2, h3, hget, hfind]

/-- Witness for C8: scenario 2 — the lookup returns only a BuildArtifact
revision, so the invocation fails and the notifier is never called. -/
theorem handler_source_artifact_witness :
    (eventScenario1.executionID ≠ "" ∧ eventScenario1.githubToken ≠ "" ∧
      eventScenario1.pipeline ≠ "") ∧
    (∀ x ∈ (PipelineExecution.mk "Succeeded"
        [ArtifactRevision.mk "BuildArtifact" "abc123" "u"]).artifactRevisions,
      x.name ≠ "SourceArtifact") ∧
    HandleLambdaEvent envNoSource eventScenario1 =
      (none, .error "missing SourceArtifact") :=
  ⟨⟨by decide, by decide, by decide⟩, by decide,
    handler_source_artifact.2 envNoSource eventScenario1
      (PipelineExecution.mk "Succeeded"
        [ArtifactRevision.mk "BuildArtifact" "abc123" "u"])
      (by decide) (by decide) (by decide) rfl (by decide)⟩

/-- C9: the response check succeeds exactly on HTTP 201; every other
status code yields an error carrying the code and the response body
verbatim, and that error is the outcome of the invocation whenever the
POST received a response. -/
theorem notifier_response (r : HttpResponse) :
    (checkGithubResponse r = .ok () ↔ r.statusCode = 201)
  ∧ (r.statusCode ≠ 201 →
      checkGithubResponse r =
        .error ("unexpected response from GitHub: " ++ toString r.statusCode
          ++ " body: " ++ r.body))
  ∧ (∀ (env : Env) (ev : Event) (req : GhRequest) (out : Except String Unit),
      HandleLambdaEvent env ev = (some req, out) → env.post req = .ok r →
      out = checkGithubResponse r) := by
  refine ⟨⟨fun hok => ?_, fun h201 => ?_⟩, fun hne => ?_,
    fun env ev req out hh hpost => ?_⟩
  · by_contra hne
    simp [checkGithubResponse, hne] at hok
  · simp [checkGithubResponse, h201]
  · simp [checkGithubResponse, hne]
  · obtain ⟨res, arti, url, repo, _, _, _, _, hreq, hout⟩ :=
      handler_sent env ev req (by rw [hh])
    have hsnd : out = (HandleLambdaEvent env ev).2 := by rw [hh]
    rw [hsnd, hout, hpost]

/-- Witness for C9: scenario 4 — a 422 response produces the error
carrying the code and body. -/
theorem notifier_response_witness :
    (HttpResponse.mk 422 "Validation Failed").statusCode ≠ 201 ∧
      checkGithubResponse (HttpResponse.mk 422 "Validation Failed") =
        .error ("unexpected response from GitHub: "
          ++ toString (HttpResponse.mk 422 "Validation Failed").statusCode
          ++ " body: " ++ (HttpResponse.mk 422 "Validation Failed").body) :=
  ⟨by decide, (notifier_response (HttpResponse.mk 422 "Validation Failed")).2.1
    (by decide)⟩

/-- C10: every payload the handler sends carries the mapped tri-state
status as state, the console deep link for the pipeline and execution id
as target URL, the fixed context literal, and an always-present empty
description. -/
theorem handler_payload (env : Env) (ev : Event) (req : GhRequest)
    (h : (HandleLambdaEvent env ev).1 = some req) :
    req.payload.targetURL =
      "https://eu-west-1.console.aws.amazon.com/codesuite/codepipeline/pipelines/"
        ++ ev.pipeline ++ "/executions/" ++ ev.executionID
  ∧ req.payload.context = "continuous-integration/codepipeline"
  ∧ req.payload.description = ""
  ∧ ∃ res, env.getPipelineExecution ev.executionID ev.pipeline = .ok res ∧
      req.payload.state = mapStatus res.status := by
  obtain ⟨res, arti, url, repo, hget, _, _, _, hreq, _⟩ :=
    handler_sent env ev req h
  subst hreq
  exact ⟨rfl, rfl, rfl, res, hget, rfl⟩

/-- Witness for C10: the scenario-1 run sends exactly the expected
payload. -/
theorem handler_payload_witness :
    (HandleLambdaEvent envScenario1 eventScenario1).1 = some reqScenario1 ∧
      (reqScenario1.payload.targetURL =
        "https://eu-west-1.console.aws.amazon.com/codesuite/codepipeline/pipelines/"
          ++ eventScenario1.pipeline ++ "/executions/" ++ eventScenario1.executionID
      ∧ reqScenario1.payload.context = "continuous-integration/codepipeline"
      ∧ reqScenario1.payload.description = ""
      ∧ ∃ res, envScenario1.getPipelineExecution eventScenario1.executionID
            eventScenario1.pipeline = .ok res ∧
          reqScenario1.payload.state = mapStatus res.status) :=
  ⟨by decide, handler_payload envScenario1 eventScenario1 reqScenario1 (by decide)⟩
